import Mathlib

/-!
# Verification of `aws_cost_reporter.py` against its specification

Shallow embedding of the analysis/normalization core of `aws_cost_reporter.py`:
the shape-tolerant loaders, the utilization aggregator and its left join, the
rightsizing rule engine of `build_report`, the Route53 duplicate-target and
low-TTL analyzers of `load_route53_eip`, and the Elastic-IP attachment count.

Python floats are modelled as `ℚ` (with `Option ℚ` for NaN/None where the code
can produce them), Python ints as `ℤ`/`ℕ`, JSON objects as small Lean
structures recording exactly the fields the code reads, and code that can
raise an exception as `Except String`.
-/

namespace AwsCostReport

/-! The size ladder and `downsize_type` (lines 228-236).  The Python code
splits the type string at the first dot into family and size, returns the
input unchanged when there is no dot (the unpacking raises, caught by the
bare except) or when the size is not on the ladder, and otherwise steps
down the ladder with the index clamped at 0 by `max`. -/

def size_order : List String :=
  ["nano","micro","small","medium","large","xlarge","2xlarge","3xlarge","4xlarge",
   "6xlarge","8xlarge","12xlarge","16xlarge","24xlarge","32xlarge","metal"]

/-- Python `s.split(".", 1)` on the character list: split at the *first* dot.
`none` models the no-dot case, where unpacking `fam, sz = ...` raises
`ValueError` (caught by the `except`, which returns the input unchanged). -/
def splitDot1 : List Char → Option (List Char × List Char)
  | [] => none
  | c :: cs =>
    if c = '.' then some ([], cs)
    else match splitDot1 cs with
         | none => none
         | some (a, b) => some (c :: a, b)

/-- Python `list.index` wrapped to also decide `sz in size_order`:
`some i` with the first index of `s`, `none` when absent. -/
def idxOf : String → List String → Option ℕ
  | _, [] => none
  | s, t :: ts => if s = t then some 0 else (idxOf s ts).map (· + 1)

/-- `downsize_type` from the source, with `steps : ℕ` (the program only ever
passes the nonnegative literals 1, 2, 5, 10 in claims and code). -/
def downsize_type (it : String) (steps : ℕ) : String :=
  match splitDot1 it.data with
  | none => it
  | some (famCs, szCs) =>
    let fam := String.mk famCs
    let sz := String.mk szCs
    match idxOf sz size_order with
    | none => it
    | some i =>
      let idx := (max 0 ((i : ℤ) - (steps : ℤ))).toNat
      fam ++ "." ++ (size_order.getD idx "")

example : downsize_type "m5.large" 2 = "m5.small" := by decide
example : downsize_type "m5.large" 10 = "m5.nano" := by decide
example : downsize_type "m5" 3 = "m5" := by decide
example : downsize_type "m5.huge" 3 = "m5.huge" := by decide

lemma splitDot1_append (a b : List Char) (h : '.' ∉ a) :
    splitDot1 (a ++ '.' :: b) = some (a, b) := by
  induction a with
  | nil => simp [splitDot1]
  | cons c cs ih =>
    have hc : c ≠ '.' := fun hc => h (hc ▸ List.mem_cons_self c cs)
    have hcs : '.' ∉ cs := fun hm => h (List.mem_cons_of_mem c hm)
    simp [splitDot1, hc, ih hcs]

lemma idxOf_lt_length (s : String) (l : List String) (i : ℕ)
    (h : idxOf s l = some i) : i < l.length := by
  induction l generalizing i with
  | nil => simp [idxOf] at h
  | cons t ts ih =>
    by_cases hs : s = t
    · simp [idxOf, hs] at h
      simp [List.length_cons]
      omega
    · simp [idxOf, hs] at h
      obtain ⟨j, hj, rfl⟩ := h
      have := ih j hj
      simp
      omega

lemma idxOf_size_order_getD (j : ℕ) (hj : j < 16) :
    idxOf (size_order.getD j "") size_order = some j := by
  interval_cases j <;> decide

lemma str_append_data (a b : String) : a ++ b = String.mk (a.data ++ b.data) := by
  cases a; cases b; rfl

lemma famDotSz_data (fam sz : String) :
    (fam ++ "." ++ sz).data = fam.data ++ '.' :: sz.data := by
  simp [String.data_append]

/-- Evaluate `downsize_type` on a well-formed `family.size` string whose size
is on the ladder at index `i`: the result is the clamped ladder entry. -/
lemma downsize_type_eval (fam sz : String) (i steps : ℕ)
    (hdot : '.' ∉ fam.data) (hidx : idxOf sz size_order = some i) :
    downsize_type (fam ++ "." ++ sz) steps
      = fam ++ "." ++ size_order.getD (max 0 ((i : ℤ) - (steps : ℤ))).toNat "" := by
  unfold downsize_type
  rw [famDotSz_data, splitDot1_append _ _ hdot]
  simp [hidx]

/-- C4: For every instance-type string of the form `family.size` (the
family part containing no dot, the size on the ladder at index `i`), and every
`n ≥ i`, `downsize_type` clamps at the bottom: the result is `family.nano`,
with no error or out-of-range access; moreover clamped downsizing composes:
`downsize_type (downsize_type t 5) 5 = downsize_type t 10` for every such `t`. -/
theorem C4_downsize_clamps_and_composes (fam sz : String) (i n : ℕ)
    (hdot : '.' ∉ fam.data) (hidx : idxOf sz size_order = some i) (hn : i ≤ n) :
    downsize_type (fam ++ "." ++ sz) n = fam ++ "." ++ "nano"
    ∧ downsize_type (downsize_type (fam ++ "." ++ sz) 5) 5
        = downsize_type (fam ++ "." ++ sz) 10 := by
  have hi16 : i < 16 := by
    have := idxOf_lt_length sz size_order i hidx
    simpa [size_order] using this
  constructor
  · rw [downsize_type_eval fam sz i n hdot hidx]
    have h0 : (max 0 ((i : ℤ) - (n : ℤ))).toNat = 0 := by omega
    rw [h0]
    rfl
  · rw [downsize_type_eval fam sz i 5 hdot hidx]
    set j := (max 0 ((i : ℤ) - ((5 : ℕ) : ℤ))).toNat with hj
    have hj16 : j < 16 := by omega
    rw [downsize_type_eval fam _ j 5 hdot (idxOf_size_order_getD j hj16)]
    rw [downsize_type_eval fam sz i 10 hdot hidx]
    have heq : (max 0 ((j : ℤ) - ((5 : ℕ) : ℤ))).toNat
        = (max 0 ((i : ℤ) - ((10 : ℕ) : ℤ))).toNat := by omega
    rw [heq]

/-- Witness for C4 at the concrete type `m5.large` (ladder index 4) with
`n = 7 ≥ 4`. -/
theorem C4_witness :
    downsize_type ("m5" ++ "." ++ "large") 7 = "m5" ++ "." ++ "nano"
    ∧ downsize_type (downsize_type ("m5" ++ "." ++ "large") 5) 5
        = downsize_type ("m5" ++ "." ++ "large") 10 :=
  C4_downsize_clamps_and_composes "m5" "large" 4 7 (by decide) (by decide) (by decide)

/-! ## Shape-tolerant loaders (lines 42-141)

`load_json` returns `None` on a missing, unreadable or unparseable file; the
`Option` argument of each loader stands for its result (with `none` also
covering a parsed-but-falsy value, since the loaders guard with `if data`
or `if not d`). Python floats are modelled as `ℚ`.
-/

/-- One entry of `.ResultsByTime[0].Groups` of `cost-by-service.json`:
`svc` is `g.get("Keys", ["Unknown"])[0]` and `amount` the result of the
`float(amt)` parse of `.Metrics.UnblendedCost.Amount` (with the `E`→`e`
retry), `none` when both parses fail, in which case the value defaults
to `0.0`. -/
structure CostGroup where
  svc : String
  amount : Option ℚ

/-- A row of the cost table: columns `Service`, `CostUSD` (line 65). -/
structure CostRow where
  service : String
  costUSD : ℚ

/-- Insertion step for a descending sort by a ℚ key. -/
def insertDescBy (key : α → ℚ) (x : α) : List α → List α
  | [] => [x]
  | y :: ys => if key y < key x then x :: y :: ys else y :: insertDescBy key x ys

/-- `DataFrame.sort_values(col, ascending=False)` modulo tie order, which no
claim depends on. -/
def sortDescBy (key : α → ℚ) (l : List α) : List α := l.foldr (insertDescBy key) []

/-- `load_cost_by_service` (lines 49-66).  The final statement is
`return pd.DataFrame(rows).sort_values("CostUSD", ascending=False)`:
a DataFrame built from an empty row list has **no columns at all**, so
pandas `sort_values` raises `KeyError` for the absent `CostUSD` column;
with a nonempty row list every row carries the column and the call sorts. -/
def load_cost_by_service (data : Option (List CostGroup)) : Except String (List CostRow) :=
  let rows : List CostRow :=
    match data with
    | none => []
    | some groups => groups.map (fun g => ⟨g.svc, g.amount.getD 0⟩)
  if rows.isEmpty then .error "KeyError: CostUSD"
  else .ok (sortDescBy CostRow.costUSD rows)

/-- Arithmetic mean, `np.mean` (non-empty input at every call site). -/
def listMean (l : List ℚ) : ℚ := l.sum / l.length

/-- Insertion step for an ascending sort on ℚ. -/
def insertAscQ (x : ℚ) : List ℚ → List ℚ
  | [] => [x]
  | y :: ys => if x < y then x :: y :: ys else y :: insertAscQ x ys

def sortAscQ (l : List ℚ) : List ℚ := l.foldr insertAscQ []

/-- `np.percentile(l, 95)` with the default linear interpolation: on the
sorted data `s` of length `n`, the virtual index is `h = (n-1) * 95/100`,
and the result interpolates between `s[⌊h⌋]` and `s[⌈h⌉]`. -/
def percentile95 (l : List ℚ) : ℚ :=
  let s := sortAscQ l
  let h : ℚ := ((s.length : ℚ) - 1) * 95 / 100
  let lo := (⌊h⌋).toNat
  let hi := (⌈h⌉).toNat
  let a := s.getD lo 0
  let b := s.getD hi 0
  a + (h - (lo : ℚ)) * (b - a)

/-- A row of the S3 table: columns `Bucket`, `AvgGiB3d` (line 140). -/
structure S3Row where
  bucket : String
  avgGiB3d : ℚ

/-- `load_s3_sizes` (lines 131-141).  The input models the files matching
`s3-*-size.json`: the bucket name extracted from the file name, and for a
parseable, truthy file the `Datapoints` list, each datapoint carrying its
`Average` value when the key is present.  A file with `none` data is
skipped (`if not d: continue`).  As in `load_cost_by_service`, the final
`sort_values("AvgGiB3d", ...)` raises `KeyError` on an empty row list. -/
def load_s3_sizes (files : List (String × Option (List (Option ℚ)))) :
    Except String (List S3Row) :=
  let rows : List S3Row := files.filterMap (fun f =>
    f.2.map (fun dps =>
      let avgs := dps.filterMap id
      let avg_bytes := if avgs.isEmpty then 0 else listMean avgs
      ⟨f.1, avg_bytes / 1024 / 1024 / 1024⟩))
  if rows.isEmpty then .error "KeyError: AvgGiB3d"
  else .ok (sortDescBy S3Row.avgGiB3d rows)

/-! ## EC2 inventory, CPU aggregation and left join (lines 68-110) -/

/-- One inventory record of `ec2-instances.json` after the object-shape
decode, with `State` already unwrapped to its scalar `Name` (line 77). -/
structure Ec2Row where
  instanceId : String
  instanceType : String
  state : String

/-- One `cpu_<id>.json` file: the instance id from the file name stem and,
for a parseable truthy file, the `Datapoints` list with each datapoint
carrying its `Average` when that key is present.  `data = none` models
`if not d: continue`. -/
structure CpuFile where
  instanceId : String
  data : Option (List (Option ℚ))

/-- A row of the per-instance CPU summary (line 107): columns `InstanceId`,
`CPUAvg7d`, `CPU95p7d`, `Samples`. -/
structure CpuRow where
  instanceId : String
  cpuAvg : Option ℚ
  cpu95 : Option ℚ
  samples : ℕ

/-- Lines 98-106: collect the `Average` of each datapoint that has one; with
no usable datapoints the averages and percentile are `None` and the sample
count is exactly `0`; with a single sample the percentile is the average. -/
def computeCpuStats (dps : List (Option ℚ)) : Option ℚ × Option ℚ × ℕ :=
  let avgs := dps.filterMap id
  if avgs.isEmpty then (none, none, 0)
  else
    let avg := listMean avgs
    let p95 := if 1 < avgs.length then percentile95 avgs else avg
    (some avg, some p95, avgs.length)

/-- Lines 93-108: one `CpuRow` per parseable `cpu_*.json` file. -/
def loadCpuRows (files : List CpuFile) : List CpuRow :=
  files.filterMap (fun f => f.data.map (fun dps =>
    let s := computeCpuStats dps
    ⟨f.instanceId, s.1, s.2.1, s.2.2⟩))

/-- A row of the enriched table `ec2m`.  `cpuAvg`, `cpu95` and `samples` are
`none` for a NaN cell: a left-join miss fills all three CPU columns with
NaN (the integer `Samples` column upcasts to float). -/
structure Enriched where
  instanceId : String
  instanceType : String
  state : String
  cpuAvg : Option ℚ
  cpu95 : Option ℚ
  samples : Option ℕ

/-- `ec2.merge(cpu, on="InstanceId", how="left")` (line 109).  pandas
requires the join column in **both** frames, and a `cpu` frame built from an
empty row list has no columns at all, so the merge raises
`KeyError` for `InstanceId`.  Otherwise each inventory row is preserved;
since the sample files give pairwise distinct instance ids (one file per
stem), the join is a first-match lookup, and a miss fills the CPU
columns with NaN. -/
def mergeEc2Cpu (ec2 : List Ec2Row) (cpu : List CpuRow) : Except String (List Enriched) :=
  if cpu.isEmpty then .error "KeyError: InstanceId"
  else .ok (ec2.map (fun e =>
    match cpu.find? (fun c => c.instanceId == e.instanceId) with
    | some c => ⟨e.instanceId, e.instanceType, e.state, c.cpuAvg, c.cpu95, some c.samples⟩
    | none => ⟨e.instanceId, e.instanceType, e.state, none, none, none⟩))

/-- `load_ec2` (lines 68-110): a missing/unparseable/falsy inventory file
returns two empty tables at once (line 71); otherwise the inventory is
decoded, the CPU summaries are built, and the enriched table is the left
join — or an empty table when the inventory is empty (line 109). -/
def load_ec2 (data : Option (List Ec2Row)) (cpuFiles : List CpuFile) :
    Except String (List Ec2Row × List Enriched) :=
  match data with
  | none => .ok ([], [])
  | some ec2 =>
    if ec2.isEmpty then .ok (ec2, [])
    else (mergeEc2Cpu ec2 (loadCpuRows cpuFiles)).map (fun m => (ec2, m))

/-! ## Rightsizing rule engine (`build_report`, lines 254-284) -/

/-- A row of the `rs_df` table (lines 273-284): `InstanceId`, `CurrentType`,
`CPUAvg7d`, `CPU95p7d`, `Samples`, `RecommendedType`, `Reason`. -/
structure RSRow where
  instanceId : String
  currentType : String
  cpuAvg : Option ℚ
  cpu95 : Option ℚ
  samples : ℕ
  recommended : String
  reason : String

/-- The loop body of lines 260-281 on one enriched row.  First
`samples = int(r.get("Samples") or 0)` runs: a NaN `Samples` cell is truthy
in Python, and `int(NaN)` raises `ValueError`; an integral cell converts.
Then the four-branch decision of lines 264-272, where `pd.isna(cpu)` is
`cpuAvg = none`.  The returned `Bool` says whether `idle_candidates` was
incremented (only in the `cpu < 5` branch, line 268). -/
def classifyRow (r : Enriched) : Except String (RSRow × Bool) :=
  match r.samples with
  | none => .error "ValueError: cannot convert float NaN to integer"
  | some n =>
    let cur := r.instanceType
    match r.cpuAvg with
    | none =>
      .ok (⟨r.instanceId, cur, none, r.cpu95, n, cur, "Insufficient metrics (retain)"⟩, false)
    | some c =>
      if n < 12 then
        .ok (⟨r.instanceId, cur, some c, r.cpu95, n, cur, "Insufficient metrics (retain)"⟩, false)
      else if c < 5 then
        .ok (⟨r.instanceId, cur, some c, r.cpu95, n,
              downsize_type cur 2, "CPU<5% (downsize 2)"⟩, true)
      else if c < 20 then
        .ok (⟨r.instanceId, cur, some c, r.cpu95, n,
              downsize_type cur 1, "CPU 5–20% (downsize 1)"⟩, false)
      else
        .ok (⟨r.instanceId, cur, some c, r.cpu95, n, cur, "CPU≥20% (retain)"⟩, false)

/-- The `for` loop of lines 259-281: build the table rows in order and sum
the idle-candidate increments; the first raised exception aborts. -/
def processRows : List Enriched → Except String (List RSRow × ℕ)
  | [] => .ok ([], 0)
  | r :: rs =>
    match classifyRow r with
    | .error e => .error e
    | .ok rb =>
      match processRows rs with
      | .error e => .error e
      | .ok rest => .ok (rb.1 :: rest.1, (if rb.2 then 1 else 0) + rest.2)

/-- Lines 257-281 for a nonempty enriched table: `hasStateCol` says whether
the table has a `State` column.  With it, the mask keeps the rows whose
state string equals `"running"`; without it the mask is
`ec2m_df.index == ec2m_df.index`, which selects every row. -/
def processEC2 (hasStateCol : Bool) (rows : List Enriched) : Except String (List RSRow × ℕ) :=
  processRows (if hasStateCol then rows.filter (fun r => r.state == "running") else rows)

/-- The idle-candidate predicate as the specification words it: running,
at least 12 samples, a non-null average CPU strictly below 5. -/
def idleCandidate (r : Enriched) : Bool :=
  (r.state == "running")
  && (match r.cpuAvg with | some c => decide (c < 5) | none => false)
  && (match r.samples with | some n => decide (12 ≤ n) | none => false)

/-! ## Claims C1, C2, C3 -/

/-- C1: the claim says a missing or unparseable input file yields an empty
table and the pipeline completes without error.  This is what the code in
fact does on a missing file: `load_cost_by_service` raises
`KeyError` for `CostUSD` and `load_s3_sizes` raises `KeyError` for
`AvgGiB3d` (sorting an empty, column-less DataFrame), so `build_report`
aborts; only `load_ec2` returns its two empty tables as claimed. -/
theorem C1_missing_file_crashes_loaders :
    load_cost_by_service none = .error "KeyError: CostUSD"
    ∧ load_s3_sizes [] = .error "KeyError: AvgGiB3d"
    ∧ load_ec2 none [] = .ok ([], []) :=
  ⟨rfl, rfl, rfl⟩

def invC2 : Ec2Row := ⟨"i-1", "m5.large", "running"⟩

/-- C2: what the code does around the left join.  (1) An instance whose
sample file parses but has zero usable datapoints does get null average,
null percentile and a sample count of exactly `0`, as claimed.  But
(2) with an inventory and **no** sample file at all, the merge raises
`KeyError` for `InstanceId` (the empty CPU frame has no columns), and
(3) with a sample file only for a different instance, the inventory record
survives the join with NaN columns — including a NaN `Samples` — and the
rule engine then raises `ValueError` at `int(NaN)` instead of processing
it. -/
theorem C2_join_loses_unmatched_instance :
    load_ec2 (some [invC2]) [⟨"i-1", some []⟩]
      = .ok ([invC2], [⟨"i-1", "m5.large", "running", none, none, some 0⟩])
    ∧ load_ec2 (some [invC2]) [] = .error "KeyError: InstanceId"
    ∧ load_ec2 (some [invC2]) [⟨"i-2", some [some 50]⟩]
      = .ok ([invC2], [⟨"i-1", "m5.large", "running", none, none, none⟩])
    ∧ processEC2 true [⟨"i-1", "m5.large", "running", none, none, none⟩]
      = .error "ValueError: cannot convert float NaN to integer" :=
  ⟨rfl, rfl, rfl, rfl⟩

def rNullCpu : Enriched := ⟨"i-0", "t3.large", "running", none, none, some 0⟩

/-- C3 counterexample: a running enriched record with null average CPU and
sample count 0 is recommended its current type, but the reason string is
`Insufficient metrics (retain)` with a capital `I`, not the
`insufficient metrics (retain)` the claim states. -/
theorem C3_counterexample :
    processEC2 true [rNullCpu]
      = .ok ([⟨"i-0", "t3.large", none, none, 0, "t3.large",
              "Insufficient metrics (retain)"⟩], 0)
    ∧ "Insufficient metrics (retain)" ≠ "insufficient metrics (retain)" :=
  ⟨rfl, by decide⟩

/-- C3 amended: for every enriched record with state `running`, a defined
sample count `n`, and null average CPU or `n < 12`, the engine recommends
the current type unchanged with reason exactly `Insufficient metrics
(retain)` (capital `I`), and does not count it as idle. -/
theorem C3_amended_insufficient_metrics (r : Enriched) (n : ℕ)
    (hrun : r.state = "running") (hs : r.samples = some n)
    (hcond : r.cpuAvg = none ∨ n < 12) :
    classifyRow r
      = .ok (⟨r.instanceId, r.instanceType, r.cpuAvg, r.cpu95, n,
              r.instanceType, "Insufficient metrics (retain)"⟩, false) := by
  rcases hcond with hc | h12
  · simp [classifyRow, hs, hc]
  · cases hc : r.cpuAvg with
    | none => simp [classifyRow, hs, hc]
    | some c => simp [classifyRow, hs, hc, h12]

/-- Witness for C3 amended at a concrete record. -/
theorem C3_witness :
    classifyRow rNullCpu
      = .ok (⟨"i-0", "t3.large", none, none, 0, "t3.large",
              "Insufficient metrics (retain)"⟩, false) :=
  C3_amended_insufficient_metrics rNullCpu 0 rfl rfl (Or.inl rfl)

/-! ## Claims C7 and C9 -/

/-- The idle-increment flag of one loop iteration: set exactly when the
average CPU is defined and below 5 and the sample count is at least 12. -/
lemma classifyRow_idle (r : Enriched) (row : RSRow) (idle : Bool)
    (h : classifyRow r = .ok (row, idle)) :
    idle = ((match r.cpuAvg with | some c => decide (c < 5) | none => false)
      && (match r.samples with | some n => decide (12 ≤ n) | none => false)) := by
  cases hs : r.samples with
  | none => simp [classifyRow, hs] at h
  | some n =>
    cases hc : r.cpuAvg with
    | none =>
      simp [classifyRow, hs, hc] at h
      simp [h.2]
    | some c =>
      by_cases h12 : n < 12
      · simp [classifyRow, hs, hc, h12] at h
        have hn : ¬ (12 ≤ n) := by omega
        simp [h.2, hn]
      · by_cases h5 : c < 5
        · simp [classifyRow, hs, hc, h12, h5] at h
          simp [h.2, h5, Nat.le_of_not_lt h12]
        · by_cases h20 : c < 20
          · simp [classifyRow, hs, hc, h12, h5, h20] at h
            simp [h.2, h5]
          · simp [classifyRow, hs, hc, h12, h5, h20] at h
            simp [h.2, h5]

/-- When the loop completes, the idle count is the number of processed rows
with defined sub-5 average CPU and at least 12 samples. -/
lemma processRows_count (l : List Enriched) (out : List RSRow) (cnt : ℕ)
    (h : processRows l = .ok (out, cnt)) :
    cnt = l.countP (fun r =>
      (match r.cpuAvg with | some c => decide (c < 5) | none => false)
      && (match r.samples with | some n => decide (12 ≤ n) | none => false)) := by
  induction l generalizing out cnt with
  | nil =>
    simp [processRows] at h
    simp [h.2]
  | cons r rs ih =>
    cases hcl : classifyRow r with
    | error e => simp [processRows, hcl] at h
    | ok rb =>
      cases hp : processRows rs with
      | error e => simp [processRows, hcl, hp] at h
      | ok rest =>
        simp [processRows, hcl, hp] at h
        rw [List.countP_cons, ← h.2, ih rest.1 rest.2 (by rw [hp]),
            classifyRow_idle r rb.1 rb.2 (by rw [hcl])]
        cases hb : ((match r.cpuAvg with | some c => decide (c < 5) | none => false)
            && (match r.samples with | some n => decide (12 ≤ n) | none => false)) <;>
          simp [Nat.add_comm]

/-- C7: when the rightsizing loop over a table with a `State` column
completes, the idle-candidate count equals exactly the number of enriched
records that are running, have at least 12 samples, and have a defined
average CPU strictly below 5; no other record contributes. -/
theorem C7_idle_candidate_count (rows : List Enriched) (out : List RSRow) (cnt : ℕ)
    (h : processEC2 true rows = .ok (out, cnt)) :
    cnt = rows.countP idleCandidate := by
  have hc := processRows_count _ _ _ h
  rw [hc]
  show (rows.filter (fun r => r.state == "running")).countP _ = _
  rw [List.countP_filter]
  congr 1
  funext r
  simp only [idleCandidate]
  cases hq : (r.state == "running") <;> simp [hq]

def rIdle : Enriched := ⟨"i-1", "m5.large", "running", some 3, some 3, some 20⟩
def rBusy : Enriched := ⟨"i-2", "m5.large", "running", some 50, some 60, some 20⟩

/-- Witness for C7 on a concrete two-row table. -/
theorem C7_witness : (1 : ℕ) = List.countP idleCandidate [rIdle, rBusy] :=
  C7_idle_candidate_count [rIdle, rBusy]
    [⟨"i-1", "m5.large", some 3, some 3, 20, "m5.small", "CPU<5% (downsize 2)"⟩,
     ⟨"i-2", "m5.large", some 50, some 60, 20, "m5.large", "CPU≥20% (retain)"⟩] 1 rfl

/-- A record with a defined sample count is classified without error, and
the produced table row keeps its instance id. -/
lemma classifyRow_isOk (r : Enriched) (n : ℕ) (hs : r.samples = some n) :
    ∃ row idle, classifyRow r = .ok (row, idle) ∧ row.instanceId = r.instanceId := by
  unfold classifyRow
  rw [hs]
  cases r.cpuAvg with
  | none => exact ⟨_, _, rfl, rfl⟩
  | some c =>
    dsimp only
    split
    · exact ⟨_, _, rfl, rfl⟩
    · split
      · exact ⟨_, _, rfl, rfl⟩
      · split
        · exact ⟨_, _, rfl, rfl⟩
        · exact ⟨_, _, rfl, rfl⟩

lemma processRows_ok (l : List Enriched) (h : ∀ r ∈ l, (r.samples).isSome) :
    ∃ out cnt, processRows l = .ok (out, cnt) ∧ out.length = l.length
      ∧ out.map RSRow.instanceId = l.map Enriched.instanceId := by
  induction l with
  | nil => exact ⟨[], 0, rfl, rfl, rfl⟩
  | cons r rs ih =>
    obtain ⟨n, hn⟩ := Option.isSome_iff_exists.mp (h r (List.mem_cons_self r rs))
    obtain ⟨row, idle, hcl, hid⟩ := classifyRow_isOk r n hn
    obtain ⟨out, cnt, hp, hlen, hmap⟩ := ih (fun x hx => h x (List.mem_cons_of_mem _ hx))
    refine ⟨row :: out, (if idle then 1 else 0) + cnt, ?_, ?_, ?_⟩
    · simp [processRows, hcl, hp]
    · simp [hlen]
    · simp [hid, hmap]

/-- C9: on a nonempty enriched table with no `State` column (and no NaN
sample counts, which would abort the loop, cf. C2), the engine treats every
record as eligible: it completes and emits one recommendation row per
record, in order, instead of emitting none. -/
theorem C9_no_state_column_processes_all (rows : List Enriched)
    (h : ∀ r ∈ rows, (r.samples).isSome) :
    ∃ out cnt, processEC2 false rows = .ok (out, cnt)
      ∧ out.length = rows.length
      ∧ out.map RSRow.instanceId = rows.map Enriched.instanceId :=
  processRows_ok rows h

def rNoState : Enriched := ⟨"i-9", "m5.large", "", some 3, some 3, some 20⟩

/-- Witness for C9 on a concrete one-row table whose state cell is empty. -/
theorem C9_witness :
    ∃ out cnt, processEC2 false [rNoState] = .ok (out, cnt)
      ∧ out.length = [rNoState].length
      ∧ out.map RSRow.instanceId = [rNoState].map Enriched.instanceId :=
  C9_no_state_column_processes_all [rNoState]
    (fun r hr => by rw [List.mem_singleton] at hr; rw [hr]; rfl)

/-! ## Claim C8: the concrete m5.large scenario

Rational arithmetic does not reduce in the kernel, so the aggregation of a
constant sample series is evaluated through the following lemmas. -/

lemma getD_replicate (n i : ℕ) (x d : ℚ) (h : i < n) :
    (List.replicate n x).getD i d = x := by
  induction n generalizing i with
  | zero => omega
  | succ m ih =>
    cases i with
    | zero => rfl
    | succ j => simpa [List.replicate_succ] using ih j (by omega)

lemma insertAscQ_replicate (m : ℕ) (x : ℚ) :
    insertAscQ x (List.replicate m x) = List.replicate (m + 1) x := by
  induction m with
  | zero => rfl
  | succ k ih =>
    simp [List.replicate_succ, insertAscQ, lt_irrefl, ih]

lemma sortAscQ_replicate (n : ℕ) (x : ℚ) :
    sortAscQ (List.replicate n x) = List.replicate n x := by
  induction n with
  | zero => rfl
  | succ m ih =>
    show insertAscQ x (sortAscQ (List.replicate m x)) = _
    rw [ih, insertAscQ_replicate]

lemma listMean_replicate (n : ℕ) (x : ℚ) (hn : n ≠ 0) :
    listMean (List.replicate n x) = x := by
  have hq : (n : ℚ) ≠ 0 := Nat.cast_ne_zero.mpr hn
  rw [listMean, List.sum_replicate, List.length_replicate, nsmul_eq_mul,
    mul_div_cancel_left₀ _ hq]

lemma percentile95_replicate (n : ℕ) (x : ℚ) (hn : 1 ≤ n) :
    percentile95 (List.replicate n x) = x := by
  unfold percentile95
  rw [sortAscQ_replicate]
  simp only [List.length_replicate]
  have hn' : (1 : ℚ) ≤ (n : ℚ) := by exact_mod_cast hn
  have hle : ((n : ℚ) - 1) * 95 / 100 ≤ (n : ℚ) - 1 := by
    rw [div_le_iff₀ (by norm_num : (0 : ℚ) < 100)]
    nlinarith
  have hfl : (⌊((n : ℚ) - 1) * 95 / 100⌋).toNat < n := by
    have h1 : ⌊((n : ℚ) - 1) * 95 / 100⌋ ≤ ⌊(n : ℚ) - 1⌋ := Int.floor_le_floor hle
    have h2 : ⌊(n : ℚ) - 1⌋ = (n : ℤ) - 1 := by
      rw [show ((n : ℚ) - 1) = (((n : ℤ) - 1 : ℤ) : ℚ) by push_cast; ring, Int.floor_intCast]
    omega
  have hcl : (⌈((n : ℚ) - 1) * 95 / 100⌉).toNat < n := by
    have h1 : ⌈((n : ℚ) - 1) * 95 / 100⌉ ≤ (n : ℤ) - 1 := by
      rw [Int.ceil_le]
      push_cast
      linarith
    omega
  rw [getD_replicate _ _ _ _ hfl, getD_replicate _ _ _ _ hcl]
  ring

/-- Evaluate `computeCpuStats` on a constant series of at least 2 samples. -/
lemma stats_replicate (n : ℕ) (x : ℚ) (hn : 2 ≤ n) :
    computeCpuStats (List.replicate n (some x)) = (some x, some x, n) := by
  have hfm : (List.replicate n (some x)).filterMap id = List.replicate n x := by
    induction n with
    | zero => rfl
    | succ m ih => simp [List.replicate_succ] at ih ⊢
  obtain ⟨m, rfl⟩ : ∃ m, n = m + 2 := ⟨n - 2, by omega⟩
  unfold computeCpuStats
  rw [hfm]
  rw [List.replicate_succ]
  simp only [List.isEmpty_cons, if_false, Bool.false_eq_true]
  rw [← List.replicate_succ]
  rw [List.length_replicate]
  rw [if_pos (by omega : 1 < m + 2)]
  rw [percentile95_replicate _ _ (by omega), listMean_replicate _ _ (by omega)]

def invC8 : Ec2Row := ⟨"i-1", "m5.large", "running"⟩
def enrC8 : Enriched := ⟨"i-1", "m5.large", "running", some 3, some 3, some 20⟩

/-- C8: one running `m5.large` instance with a constant 3 percent CPU series
of 20 samples: the join produces average 3, 95th percentile 3, 20 samples,
and the engine recommends `m5.small` (ladder index 4 minus 2 is index 2)
with reason exactly `CPU<5% (downsize 2)`, counting it as one idle
candidate. -/
theorem C8_m5large_low_cpu_scenario :
    load_ec2 (some [invC8]) [⟨"i-1", some (List.replicate 20 (some 3))⟩]
      = .ok ([invC8], [enrC8])
    ∧ processEC2 true [enrC8]
      = .ok ([⟨"i-1", "m5.large", some 3, some 3, 20, "m5.small",
              "CPU<5% (downsize 2)"⟩], 1) := by
  constructor
  · have hrows : loadCpuRows [⟨"i-1", some (List.replicate 20 (some (3 : ℚ)))⟩]
        = [⟨"i-1", some 3, some 3, 20⟩] := by
      show [(⟨"i-1", (computeCpuStats (List.replicate 20 (some (3 : ℚ)))).1,
            (computeCpuStats (List.replicate 20 (some (3 : ℚ)))).2.1,
            (computeCpuStats (List.replicate 20 (some (3 : ℚ)))).2.2⟩ : CpuRow)] = _
      rw [stats_replicate 20 (3 : ℚ) (by norm_num)]
    show (mergeEc2Cpu [invC8]
        (loadCpuRows [⟨"i-1", some (List.replicate 20 (some 3))⟩])).map
        (fun m => ([invC8], m)) = _
    rw [hrows]
    rfl
  · rfl

/-! ## Route53 record analysis (`load_route53_eip`, lines 163-226) -/

/-- The `AliasTarget` value of a record set, abstracted to what lines
199-205 read: Python truthiness of the object (an empty object is falsy)
and the presence of a `DNSName` key.  An absent key or JSON `null` is
`none` at the `Option` level. -/
inductive AliasVal where
  | empty
  | withDNS (dns : String)
  | withoutDNS
  deriving DecidableEq

/-- `rr.get("TTL")` as the `isinstance(ttl, int)` test sees a present
value: a JSON integer, or something else (float, string, object). -/
inductive TTLVal where
  | intV (n : ℤ)
  | nonInt
  deriving DecidableEq

/-- One entry of `ResourceRecordSets` with the fields lines 196-211 read:
`rtype` is `rr.get("Type", "")`, `name` is `rr.get("Name", "")`, and
`values` holds `rec.get("Value")` for each entry of
`rr.get("ResourceRecords", [])`. -/
structure RRSet where
  rtype : String
  name : String
  aliasTarget : Option AliasVal
  ttl : Option TTLVal
  values : List (Option String)
  deriving DecidableEq

/-- Python truthiness of `alias = rr.get("AliasTarget")`: `None` and the
empty object are falsy, any nonempty object is truthy. -/
def aliasTruthy : Option AliasVal → Bool
  | none => false
  | some .empty => false
  | some _ => true

/-- Python `s.rstrip(".")`: drop every trailing dot. -/
def rstripDots (s : String) : String :=
  String.mk ((s.data.reverse.dropWhile (fun c => c = '.')).reverse)

/-- Python `s.lower()` on the ASCII alphabet of DNS names. -/
def pyLower (s : String) : String := String.mk (s.data.map Char.toLower)

/-- Lines 203-211: the target keys one record contributes to the map of a
zone, in iteration order.  Only `A` records contribute.  A truthy alias
with a `DNSName` contributes the normalized (dot-stripped, lowercased) DNS
name as its single key; any other record contributes each truthy `Value`
string untouched. -/
def targetsOf (rr : RRSet) : List String :=
  if rr.rtype = "A" then
    match rr.aliasTarget with
    | some (.withDNS d) => [pyLower (rstripDots d)]
    | _ => rr.values.filterMap (fun v =>
        match v with
        | some s => if s = "" then none else some s
        | none => none)
  else []

/-- The (target, name) append sequence the loop of lines 196-211 performs. -/
def bindingPairs (rrsets : List RRSet) : List (String × String) :=
  rrsets.bind (fun rr => (targetsOf rr).map (fun t => (t, rr.name)))

/-- `target_map.setdefault(target, []).append(name)` on an
insertion-ordered association list (a Python dict preserves insertion
order and a new key goes to the end). -/
def addBinding : List (String × List String) → String → String → List (String × List String)
  | [], t, n => [(t, [n])]
  | (te, ns) :: m, t, n =>
    if te = t then (te, ns ++ [n]) :: m else (te, ns) :: addBinding m t n

def buildTargetMap (rrsets : List RRSet) : List (String × List String) :=
  (bindingPairs rrsets).foldl (fun m p => addBinding m p.1 p.2) []

/-- The names among a (target, name) sequence bound to target `t`. -/
def selNames (pairs : List (String × String)) (t : String) : List String :=
  pairs.filterMap (fun p => if p.1 = t then some p.2 else none)

/-- The record names bound to target `t`, in append order: the
specification-side reading of the target map. -/
def boundNames (rrsets : List RRSet) (t : String) : List String :=
  selNames (bindingPairs rrsets) t

structure DupeFinding where
  zoneId : String
  target : String
  names : String
  deriving DecidableEq

/-- Python `sorted` on strings: lexicographic by code point. -/
def insertAscStr (x : String) : List String → List String
  | [] => [x]
  | y :: ys => if x < y then x :: y :: ys else y :: insertAscStr x ys

def sortStr (l : List String) : List String := l.foldr insertAscStr []

/-- Lines 212-214: one finding per map entry with at least two distinct
names, carrying `", ".join(sorted(set(names)))`. -/
def dupesOfZone (zone : String) (rrsets : List RRSet) : List DupeFinding :=
  (buildTargetMap rrsets).filterMap (fun e =>
    if 1 < e.2.dedup.length
    then some ⟨zone, e.1, String.intercalate ", " (sortStr e.2.dedup)⟩
    else none)

structure LowTTLFinding where
  zoneId : String
  name : String
  rtype : String
  ttl : ℤ
  deriving DecidableEq

/-- Lines 196-202: the low-TTL test of one record:
`rtype in ("A", "AAAA", "CNAME") and not alias and isinstance(ttl, int)
and ttl < 300`. -/
def lowTTLRec (zone : String) (rr : RRSet) : Option LowTTLFinding :=
  match rr.ttl with
  | some (.intV n) =>
    if (rr.rtype == "A" || rr.rtype == "AAAA" || rr.rtype == "CNAME")
        && !aliasTruthy rr.aliasTarget && decide (n < 300)
    then some ⟨zone, rr.name, rr.rtype, n⟩
    else none
  | _ => none

def lowTTLOfZone (zone : String) (rrsets : List RRSet) : List LowTTLFinding :=
  rrsets.filterMap (lowTTLRec zone)

/-! ## Claim C6 -/

lemma aliasTruthy_eq_false (a : Option AliasVal) :
    aliasTruthy a = false ↔ a = none ∨ a = some .empty := by
  cases a with
  | none => simp [aliasTruthy]
  | some v => cases v <;> simp [aliasTruthy]

def rrEmptyAlias : RRSet := ⟨"A", "api.example.com", some .empty, some (.intV 60), []⟩

/-- C6 counterexample: a record whose `AliasTarget` is present as the empty
object still produces a low-TTL finding, because the code tests Python
truthiness (`not alias`), not key presence; the claim says a record with an
alias target present never produces one. -/
theorem C6_counterexample :
    lowTTLOfZone "Z1" [rrEmptyAlias] = [⟨"Z1", "api.example.com", "A", 60⟩]
    ∧ rrEmptyAlias.aliasTarget ≠ none :=
  ⟨rfl, by decide⟩

/-- Characterization of the per-record low-TTL test. -/
lemma lowTTLRec_eq_some (zone : String) (rr : RRSet) (f : LowTTLFinding) :
    lowTTLRec zone rr = some f
      ↔ (rr.rtype = "A" ∨ rr.rtype = "AAAA" ∨ rr.rtype = "CNAME")
        ∧ (rr.aliasTarget = none ∨ rr.aliasTarget = some .empty)
        ∧ ∃ n : ℤ, rr.ttl = some (.intV n) ∧ n < 300
            ∧ f = ⟨zone, rr.name, rr.rtype, n⟩ := by
  cases ht : rr.ttl with
  | none => simp [lowTTLRec, ht]
  | some tv =>
    cases tv with
    | nonInt => simp [lowTTLRec, ht]
    | intV n =>
      simp only [lowTTLRec, ht]
      by_cases hc : ((rr.rtype == "A" || rr.rtype == "AAAA" || rr.rtype == "CNAME")
          && !aliasTruthy rr.aliasTarget && decide (n < 300)) = true
      · rw [if_pos hc]
        have hc' := hc
        simp only [Bool.and_eq_true, Bool.or_eq_true, beq_iff_eq, Bool.not_eq_true',
          decide_eq_true_eq] at hc'
        obtain ⟨⟨htyp, hal⟩, hlt⟩ := hc'
        constructor
        · intro hf
          exact ⟨by tauto, (aliasTruthy_eq_false _).mp hal, n, rfl, hlt,
            (Option.some.inj hf).symm⟩
        · rintro ⟨-, -, n', hmn, -, rfl⟩
          cases Option.some.inj hmn
          rfl
      · rw [if_neg hc]
        constructor
        · intro hf
          cases hf
        · rintro ⟨htyp, hal, n', hmn, hlt', rfl⟩
          cases Option.some.inj hmn
          refine absurd ?_ hc
          simp only [Bool.and_eq_true, Bool.or_eq_true, beq_iff_eq, Bool.not_eq_true',
            decide_eq_true_eq]
          exact ⟨⟨by tauto, (aliasTruthy_eq_false _).mpr hal⟩, hlt'⟩

/-- C6 amended: a low-TTL finding is produced from a record exactly when its
type is A, AAAA or CNAME, its alias target is absent **or is the falsy empty
object**, and its TTL is an integer strictly below 300; absent or
non-integer TTL never fires, and the finding carries the zone, name, type
and TTL. -/
theorem C6_low_ttl_iff (zone : String) (rrsets : List RRSet) (f : LowTTLFinding) :
    f ∈ lowTTLOfZone zone rrsets
      ↔ ∃ rr ∈ rrsets,
          (rr.rtype = "A" ∨ rr.rtype = "AAAA" ∨ rr.rtype = "CNAME")
          ∧ (rr.aliasTarget = none ∨ rr.aliasTarget = some .empty)
          ∧ ∃ n : ℤ, rr.ttl = some (.intV n) ∧ n < 300
              ∧ f = ⟨zone, rr.name, rr.rtype, n⟩ := by
  rw [lowTTLOfZone, List.mem_filterMap]
  constructor
  · rintro ⟨rr, hm, hf⟩
    exact ⟨rr, hm, (lowTTLRec_eq_some zone rr f).mp hf⟩
  · rintro ⟨rr, hm, hcond⟩
    exact ⟨rr, hm, (lowTTLRec_eq_some zone rr f).mpr hcond⟩

def rrLowTTL : RRSet := ⟨"A", "api.example.com", none, some (.intV 60), [some "203.0.113.10"]⟩

/-- Witness for C6 amended: the non-alias `A api.example.com` record with
TTL 60 produces its finding. -/
theorem C6_witness :
    (⟨"Z1", "api.example.com", "A", 60⟩ : LowTTLFinding) ∈ lowTTLOfZone "Z1" [rrLowTTL] :=
  (C6_low_ttl_iff "Z1" [rrLowTTL] _).mpr
    ⟨rrLowTTL, List.mem_singleton_self _, Or.inl rfl, Or.inl rfl, 60, rfl, by decide, rfl⟩

/-! ## Claim C5: the target map as an association list -/

/-- First-match lookup in the insertion-ordered map. -/
def findEntry : List (String × List String) → String → Option (List String)
  | [], _ => none
  | (te, ns) :: m, t => if te = t then some ns else findEntry m t

def mapKeys (m : List (String × List String)) : List String := m.map Prod.fst

lemma findEntry_addBinding (m : List (String × List String)) (t n t' : String) :
    findEntry (addBinding m t n) t'
      = if t' = t then some ((findEntry m t).getD [] ++ [n]) else findEntry m t' := by
  induction m with
  | nil =>
    by_cases h : t' = t
    · simp [addBinding, findEntry, h]
    · simp [addBinding, findEntry, h, Ne.symm h]
  | cons e m ih =>
    obtain ⟨te, ns⟩ := e
    by_cases he : te = t
    · subst he
      by_cases h : t' = te
      · subst h
        simp [addBinding, findEntry]
      · simp [addBinding, findEntry, h, Ne.symm h]
    · by_cases h2 : te = t'
      · subst h2
        simp [addBinding, findEntry, he, fun hh : te = t => he hh]
      · simp [addBinding, findEntry, he, h2, ih]

lemma findEntry_foldl_getD (pairs : List (String × String))
    (m : List (String × List String)) (t : String) :
    (findEntry (pairs.foldl (fun m p => addBinding m p.1 p.2) m) t).getD []
      = (findEntry m t).getD [] ++ selNames pairs t := by
  induction pairs generalizing m with
  | nil => simp [selNames]
  | cons p ps ih =>
    obtain ⟨pt, pn⟩ := p
    rw [List.foldl_cons, ih, findEntry_addBinding]
    by_cases h : pt = t
    · subst h
      simp [selNames, List.append_assoc]
    · simp [selNames, h, Ne.symm h]

lemma findEntry_foldl_none (pairs : List (String × String))
    (m : List (String × List String)) (t : String) :
    findEntry (pairs.foldl (fun m p => addBinding m p.1 p.2) m) t = none
      ↔ findEntry m t = none ∧ selNames pairs t = [] := by
  induction pairs generalizing m with
  | nil => simp [selNames]
  | cons p ps ih =>
    obtain ⟨pt, pn⟩ := p
    rw [List.foldl_cons, ih, findEntry_addBinding]
    by_cases h : pt = t
    · subst h
      simp [selNames]
    · simp [selNames, h, Ne.symm h]

/-- The target map realizes `boundNames`: an absent key has no bindings, a
present key holds exactly the names bound to it, in append order. -/
lemma findEntry_buildTargetMap (rrsets : List RRSet) (t : String) :
    findEntry (buildTargetMap rrsets) t
      = if boundNames rrsets t = [] then none else some (boundNames rrsets t) := by
  by_cases hb : boundNames rrsets t = []
  · rw [if_pos hb, buildTargetMap]
    exact (findEntry_foldl_none _ _ t).mpr ⟨rfl, hb⟩
  · rw [if_neg hb]
    cases hfe : findEntry (buildTargetMap rrsets) t with
    | none =>
      rw [buildTargetMap] at hfe
      exact absurd ((findEntry_foldl_none _ _ t).mp hfe).2 hb
    | some l =>
      have hg := findEntry_foldl_getD (bindingPairs rrsets) [] t
      rw [← buildTargetMap, hfe] at hg
      simp only [Option.getD_some, findEntry, Option.getD_none, List.nil_append] at hg
      rw [hg]
      rfl

lemma mem_of_findEntry (m : List (String × List String)) (t : String) (ns : List String)
    (h : findEntry m t = some ns) : (t, ns) ∈ m := by
  induction m with
  | nil => cases h
  | cons e m ih =>
    obtain ⟨te, ns'⟩ := e
    by_cases he : te = t
    · subst he
      simp only [findEntry, if_pos rfl] at h
      cases Option.some.inj h
      exact List.mem_cons_self _ _
    · simp only [findEntry, if_neg he] at h
      exact List.mem_cons_of_mem _ (ih h)

lemma findEntry_of_mem (m : List (String × List String)) (t : String) (ns : List String)
    (hnd : (mapKeys m).Nodup) (h : (t, ns) ∈ m) : findEntry m t = some ns := by
  induction m with
  | nil => cases h
  | cons e m ih =>
    obtain ⟨te, ns'⟩ := e
    simp only [mapKeys, List.map_cons, List.nodup_cons] at hnd
    rw [List.mem_cons] at h
    rcases h with h | h
    · injection h with h1 h2
      subst h1
      subst h2
      simp [findEntry]
    · have ht : te ≠ t := by
        intro he
        subst he
        exact hnd.1 (List.mem_map_of_mem Prod.fst h)
      simp only [findEntry, if_neg ht]
      exact ih hnd.2 h

lemma mapKeys_addBinding (m : List (String × List String)) (t n : String) :
    mapKeys (addBinding m t n)
      = if t ∈ mapKeys m then mapKeys m else mapKeys m ++ [t] := by
  induction m with
  | nil => simp [addBinding, mapKeys]
  | cons e m ih =>
    obtain ⟨te, ns⟩ := e
    by_cases h : te = t
    · subst h
      simp [addBinding, mapKeys]
    · simp only [addBinding, if_neg h, mapKeys, List.map_cons] at ih ⊢
      rw [ih]
      by_cases h2 : t ∈ m.map Prod.fst
      · simp [h2, Ne.symm h]
      · simp [h2, Ne.symm h]

lemma nodup_mapKeys_addBinding (m : List (String × List String)) (t n : String)
    (h : (mapKeys m).Nodup) : (mapKeys (addBinding m t n)).Nodup := by
  rw [mapKeys_addBinding]
  by_cases h2 : t ∈ mapKeys m
  · rw [if_pos h2]
    exact h
  · rw [if_neg h2]
    simp [List.nodup_append, h, h2]

lemma nodup_mapKeys_buildTargetMap (rrsets : List RRSet) :
    (mapKeys (buildTargetMap rrsets)).Nodup := by
  rw [buildTargetMap]
  generalize bindingPairs rrsets = pairs
  suffices h : ∀ (m : List (String × List String)), (mapKeys m).Nodup →
      (mapKeys (pairs.foldl (fun m p => addBinding m p.1 p.2) m)).Nodup by
    exact h [] (by simp [mapKeys])
  induction pairs with
  | nil => exact fun m hm => hm
  | cons p ps ih => exact fun m hm => ih _ (nodup_mapKeys_addBinding m p.1 p.2 hm)

/-- C5: within one zone, a duplicate-target finding exists for target `t`
exactly when at least two **distinct** record names bind `t` (an alias
contributes its dot-stripped, lowercased DNS name as key, a plain `A`
record each truthy value string; a repeated identical name is not a
duplicate), and every finding carries the zone id and the sorted,
de-duplicated, comma-joined list of the names bound to its target. -/
theorem C5_duplicate_target_findings (zone : String) (rrsets : List RRSet) (t : String) :
    ((∃ f, f ∈ dupesOfZone zone rrsets ∧ f.target = t)
      ↔ 2 ≤ (boundNames rrsets t).dedup.length)
    ∧ ∀ f, f ∈ dupesOfZone zone rrsets →
        f.zoneId = zone
        ∧ f.names = String.intercalate ", " (sortStr (boundNames rrsets f.target).dedup) := by
  have hnd := nodup_mapKeys_buildTargetMap rrsets
  constructor
  · constructor
    · rintro ⟨f, hf, rfl⟩
      rw [dupesOfZone, List.mem_filterMap] at hf
      obtain ⟨e, hem, hee⟩ := hf
      by_cases hlen : 1 < e.2.dedup.length
      case neg => rw [if_neg hlen] at hee; cases hee
      rw [if_pos hlen] at hee
      cases Option.some.inj hee
      have hfe : findEntry (buildTargetMap rrsets) e.1 = some e.2 :=
        findEntry_of_mem _ _ _ hnd hem
      rw [findEntry_buildTargetMap rrsets e.1] at hfe
      by_cases hb : boundNames rrsets e.1 = []
      · rw [if_pos hb] at hfe
        cases hfe
      · rw [if_neg hb] at hfe
        have he2 : e.2 = boundNames rrsets e.1 := (Option.some.inj hfe).symm
        rw [he2] at hlen
        show 2 ≤ (boundNames rrsets e.1).dedup.length
        omega
    · intro h2
      have hb : boundNames rrsets t ≠ [] := by
        intro hb
        rw [hb] at h2
        simp at h2
      have hfe : findEntry (buildTargetMap rrsets) t = some (boundNames rrsets t) := by
        rw [findEntry_buildTargetMap rrsets t, if_neg hb]
      have hmem : (t, boundNames rrsets t) ∈ buildTargetMap rrsets :=
        mem_of_findEntry _ _ _ hfe
      refine ⟨⟨zone, t, String.intercalate ", " (sortStr (boundNames rrsets t).dedup)⟩, ?_, rfl⟩
      rw [dupesOfZone, List.mem_filterMap]
      exact ⟨(t, boundNames rrsets t), hmem,
        by rw [if_pos (show (1 : ℕ) < (boundNames rrsets t).dedup.length by omega)]⟩
  · intro f hf
    rw [dupesOfZone, List.mem_filterMap] at hf
    obtain ⟨e, hem, hee⟩ := hf
    by_cases hlen : 1 < e.2.dedup.length
    case neg => rw [if_neg hlen] at hee; cases hee
    rw [if_pos hlen] at hee
    cases Option.some.inj hee
    have hfe : findEntry (buildTargetMap rrsets) e.1 = some e.2 :=
      findEntry_of_mem _ _ _ hnd hem
    rw [findEntry_buildTargetMap rrsets e.1] at hfe
    by_cases hb : boundNames rrsets e.1 = []
    · rw [if_pos hb] at hfe
      cases hfe
    · rw [if_neg hb] at hfe
      have he2 : e.2 = boundNames rrsets e.1 := (Option.some.inj hfe).symm
      exact ⟨rfl, by rw [he2]⟩

def rrAlias1 : RRSet := ⟨"A", "example.com", some (.withDNS "lb.example.com."), none, []⟩
def rrAlias2 : RRSet := ⟨"A", "www.example.com", some (.withDNS "LB.EXAMPLE.COM"), none, []⟩

/-- Witness for C5: the two alias records of the specification example
normalize to the same target and yield a duplicate-target finding. -/
theorem C5_witness :
    ∃ f, f ∈ dupesOfZone "Z1" [rrAlias1, rrAlias2] ∧ f.target = "lb.example.com" :=
  (C5_duplicate_target_findings "Z1" [rrAlias1, rrAlias2] "lb.example.com").1.mpr (by decide)

/-! ## Elastic IPs (lines 182-187) and Claim C10 -/

/-- A JSON value of an Elastic-IP address object: enough structure to show
that only key *presence* matters, never the value. -/
inductive JVal where
  | null
  | str (s : String)
  | num (q : ℚ)
  deriving DecidableEq

/-- One entry of `.Addresses` of `elastic-ips.json` as a key-value list. -/
structure EIPEntry where
  fields : List (String × JVal)
  deriving DecidableEq

/-- Python `k in e` on the JSON object. -/
def hasKey (e : EIPEntry) (k : String) : Bool := e.fields.any (fun f => f.1 == k)

/-- Lines 184-187: an address counts as unattached when
`"InstanceId" not in e and "NetworkInterfaceId" not in e and
"AssociationId" not in e`. -/
def eipUnattached (e : EIPEntry) : Bool :=
  !hasKey e "InstanceId" && !hasKey e "NetworkInterfaceId" && !hasKey e "AssociationId"

/-- Line 184: `eip_unattached = sum(1 for e in eip_list if ...)`. -/
def count_eip_unattached (l : List EIPEntry) : ℕ := l.countP eipUnattached

lemma hasKey_iff (e : EIPEntry) (k : String) :
    hasKey e k = true ↔ ∃ v, (k, v) ∈ e.fields := by
  rw [hasKey, List.any_eq_true]
  constructor
  · rintro ⟨⟨k', v⟩, hm, hk⟩
    rw [beq_iff_eq] at hk
    subst hk
    exact ⟨v, hm⟩
  · rintro ⟨v, hm⟩
    exact ⟨(k, v), hm, by rw [beq_iff_eq]⟩

/-- C10: an Elastic-IP address entry counts as unattached exactly when none
of the keys `InstanceId`, `NetworkInterfaceId`, `AssociationId` occurs in
it — whatever value a present key carries, including null or an empty
string — and the unattached count is the number of such entries. -/
theorem C10_eip_unattached_iff (e : EIPEntry) (l : List EIPEntry) :
    (eipUnattached e = true
      ↔ (¬ ∃ v, ("InstanceId", v) ∈ e.fields)
        ∧ (¬ ∃ v, ("NetworkInterfaceId", v) ∈ e.fields)
        ∧ (¬ ∃ v, ("AssociationId", v) ∈ e.fields))
    ∧ count_eip_unattached l = (l.filter eipUnattached).length := by
  have h1 : ∀ k, hasKey e k = false ↔ ¬ ∃ v, (k, v) ∈ e.fields := by
    intro k
    rw [← hasKey_iff]
    cases hasKey e k <;> simp
  constructor
  · rw [eipUnattached]
    simp only [Bool.and_eq_true, Bool.not_eq_true']
    rw [h1, h1, h1]
    tauto
  · rw [count_eip_unattached, List.countP_eq_length_filter]

def eipNullInstance : EIPEntry := ⟨[("PublicIp", .str "203.0.113.7"), ("InstanceId", .null)]⟩
def eipFree : EIPEntry := ⟨[("PublicIp", .str "203.0.113.8"), ("AllocationId", .str "eipalloc-1")]⟩

/-- Witness for C10: an entry whose `InstanceId` key is present with value
null still counts as attached, and the count over a concrete list matches
the filter length. -/
theorem C10_witness :
    eipUnattached eipNullInstance = false
    ∧ count_eip_unattached [eipNullInstance, eipFree]
        = (List.filter eipUnattached [eipNullInstance, eipFree]).length := by
  refine ⟨?_, (C10_eip_unattached_iff eipFree [eipNullInstance, eipFree]).2⟩
  cases h : eipUnattached eipNullInstance with
  | false => rfl
  | true =>
    exact absurd ⟨JVal.null, by simp [eipNullInstance]⟩
      ((C10_eip_unattached_iff eipNullInstance []).1.mp h).1

end AwsCostReport
